import Mathlib

/-!
Shallow embedding of the `euler` repository's constraint-validated binding
system (src/generic/objects/constraints, src/generic/objects/variables,
src/generic/objects/problems), with theorems settling the frozen claims.

Modelling conventions:
* Python values are modelled by `Val` (`none`, integers, and references into
  an explicit heap of lists, used where aliasing matters).
* The abstract `Constraint` base class is modelled by a type parameter `C`
  with decidable equality (Python `__eq__`/`__hash__`) together with an
  evaluation function `eval : C → Val → Bool`; `eval c v = true` models
  `c.evaluate(v)` returning normally, `false` models it raising.
* A raised Python exception is modelled by an `Except`/`Option` error value;
  mutations that the source performs before the raise point are kept in the
  returned state, mutations after it are not.
-/

/-- A Python value: `None`, an integer, or a reference to a heap cell
holding a list (mutable object identity is explicit via `ref`). -/
inductive Val where
  | none
  | int (z : Int)
  | ref (n : Nat)
deriving DecidableEq, Repr

/-- The Python exceptions raised by the embedded code paths. -/
inductive PyErr where
  | attributeError
  | typeError
  | notImplementedError
deriving DecidableEq, Repr

/-- `set(xs)` on an iterable: keeps one occurrence of each element
(Python set iteration order is arbitrary; the model keeps first
occurrences). -/
def pySetOf {C : Type} [DecidableEq C] (xs : List C) : List C :=
  xs.dedup

/-- Python `s.union(t)` on sets represented as duplicate-free lists. -/
def pyUnion {C : Type} [DecidableEq C] (s t : List C) : List C :=
  s ++ t.filter (fun c => !(decide (c ∈ s)))

/-- Python `s - t` on sets represented as duplicate-free lists. -/
def pyDiff {C : Type} [DecidableEq C] (s t : List C) : List C :=
  s.filter (fun c => !(decide (c ∈ t)))

/-- The runtime state of the `ConstraintSet._constraints` field.  It is a
`set` (modelled as a duplicate-free list) everywhere in the source except
after `clear()`, which executes `self._constraints = {}` — a Python empty
*dict* literal, not a set. -/
inductive Store (C : Type) where
  | set (s : List C)
  | emptyDict
deriving DecidableEq

/-- `ConstraintSet` (constraints/__init__.py:74-172): a container whose
`_constraints` field holds the unique constraints. -/
structure ConstraintSet (C : Type) where
  store : Store C
deriving DecidableEq

/-- `ConstraintSet.__init__` (constraints/__init__.py:85-101): starts from
`set()` and adds the given constraints; `None` is the empty list here. -/
def ConstraintSet.init {C : Type} [DecidableEq C] (cs : List C) : ConstraintSet C :=
  ⟨Store.set (pyUnion [] (pySetOf cs))⟩

/-- `ConstraintSet.add_constraints` (constraints/__init__.py:115-126):
`self._constraints = self._constraints.union(set(constraints))`.  On the
post-`clear()` dict state, `dict.union` does not exist, so Python raises
`AttributeError`. -/
def ConstraintSet.add_constraints {C : Type} [DecidableEq C]
    (s : ConstraintSet C) (cs : List C) : Except PyErr (ConstraintSet C) :=
  match s.store with
  | Store.set t => Except.ok ⟨Store.set (pyUnion t (pySetOf cs))⟩
  | Store.emptyDict => Except.error PyErr.attributeError

/-- `ConstraintSet.add_constraint` (constraints/__init__.py:103-113):
delegates to `add_constraints` with a singleton. -/
def ConstraintSet.add_constraint {C : Type} [DecidableEq C]
    (s : ConstraintSet C) (c : C) : Except PyErr (ConstraintSet C) :=
  s.add_constraints [c]

/-- `ConstraintSet.remove_constraints` (constraints/__init__.py:140-151):
`self._constraints = self._constraints - set(constraints)`.  On the
post-`clear()` dict state, `dict - set` is unsupported, so Python raises
`TypeError`. -/
def ConstraintSet.remove_constraints {C : Type} [DecidableEq C]
    (s : ConstraintSet C) (cs : List C) : Except PyErr (ConstraintSet C) :=
  match s.store with
  | Store.set t => Except.ok ⟨Store.set (pyDiff t (pySetOf cs))⟩
  | Store.emptyDict => Except.error PyErr.typeError

/-- `ConstraintSet.remove_constraint` (constraints/__init__.py:128-138). -/
def ConstraintSet.remove_constraint {C : Type} [DecidableEq C]
    (s : ConstraintSet C) (c : C) : Except PyErr (ConstraintSet C) :=
  s.remove_constraints [c]

/-- `ConstraintSet.clear` (constraints/__init__.py:153-161):
`self._constraints = {}`, i.e. the empty dict. -/
def ConstraintSet.clear {C : Type} (_ : ConstraintSet C) : ConstraintSet C :=
  ⟨Store.emptyDict⟩

/-- `ConstraintSet.constraints` property (constraints/__init__.py:163-172):
`list(self._constraints.copy())`; listing an empty dict yields `[]`. -/
def ConstraintSet.constraints {C : Type} (s : ConstraintSet C) : List C :=
  match s.store with
  | Store.set t => t
  | Store.emptyDict => []

/-- `Variable` (variables/__init__.py:7-119): name, description and an owned
`_constraint_set`.  The class holds no binding value. -/
structure Variable (C : Type) where
  name : String
  description : String
  constraint_set : ConstraintSet C
deriving DecidableEq

/-- `Variable.__init__` (variables/__init__.py:22-36). -/
def Variable.init {C : Type} [DecidableEq C]
    (name description : String) (cs : List C) : Variable C :=
  ⟨name, description, ConstraintSet.init cs⟩

/-- `Variable.constrain` (variables/__init__.py:38-49): normalizes the
argument to an iterable and adds it to the constraint set.  No re-validation
of any binding occurs (the class holds no binding). -/
def Variable.constrain {C : Type} [DecidableEq C]
    (v : Variable C) (cs : List C) : Except PyErr (Variable C) :=
  (v.constraint_set.add_constraints cs).map (fun s => ⟨v.name, v.description, s⟩)

/-- `Variable.unconstrain` (variables/__init__.py:51-62). -/
def Variable.unconstrain {C : Type} [DecidableEq C]
    (v : Variable C) (cs : List C) : Except PyErr (Variable C) :=
  (v.constraint_set.remove_constraints cs).map (fun s => ⟨v.name, v.description, s⟩)

/-- `Variable.constraints` property (variables/__init__.py:110-119). -/
def Variable.constraints {C : Type} (v : Variable C) : List C :=
  v.constraint_set.constraints

/-- `Binding` (variables/__init__.py:122-197): a value bound to a variable.
Fields `var`/`val` model the Python attributes `_variable`/`_value`. -/
structure Binding (C : Type) where
  var : Variable C
  val : Val
deriving DecidableEq

/-- The first constraint in the list whose `evaluate` raises on `x`
(the loop in `Binding.bind`, variables/__init__.py:172-173). -/
def firstViolation {C : Type} (eval : C → Val → Bool) (cs : List C) (x : Val) : Option C :=
  cs.find? (fun c => !(eval c x))

/-- `Binding.bind` (variables/__init__.py:161-175): evaluates every
constraint of the associated variable on the value; the first violation
raises before `self._value = value` executes, so the stored value is
unchanged on failure.  There is no sentinel check: every value, `None`
included, is validated. -/
def Binding.bind {C : Type} (eval : C → Val → Bool)
    (b : Binding C) (x : Val) : Binding C × Option C :=
  match firstViolation eval b.var.constraints x with
  | some c => (b, some c)
  | Option.none => ({ b with val := x }, Option.none)

/-- `Binding.__init__` (variables/__init__.py:134-146): sets `_value = None`,
stores the variable, then calls `bind(value)`; a violation propagates out of
the constructor. -/
def Binding.init {C : Type} (eval : C → Val → Bool)
    (v : Variable C) (x : Val) : Except C (Binding C) :=
  match Binding.bind eval ⟨v, Val.none⟩ x with
  | (b, Option.none) => Except.ok b
  | (_, some c) => Except.error c

/-- `Binding.reassociate` (variables/__init__.py:148-159): assigns
`self._variable = variable` first, then `self.bind(self._value)`; a bind
failure leaves the new variable in place (no rollback). -/
def Binding.reassociate {C : Type} (eval : C → Val → Bool)
    (b : Binding C) (w : Variable C) : Binding C × Option C :=
  Binding.bind eval { b with var := w } b.val

/-- Calling `constrain` on the variable a binding points to
(Python aliasing: the binding's `_variable` is the same object, so the
binding observes the mutated constraint set). -/
def Binding.constrainVar {C : Type} [DecidableEq C]
    (b : Binding C) (cs : List C) : Except PyErr (Binding C) :=
  (b.var.constrain cs).map (fun v => { b with var := v })

/-- `Solution.__init__` (variables/__init__.py:211-223): takes only a
description and calls the `Variable` constructor with the fixed name
`Solution.__name__ = "Solution"` and `constraints=None`.  No value is
accepted and nothing is bound. -/
def Solution.init {C : Type} [DecidableEq C] (description : String) : Variable C :=
  Variable.init "Solution" description []

/-- `Solution.constrain` (variables/__init__.py:225-237): raises
`NotImplementedError` unconditionally, before any state change. -/
def Solution.constrain {C : Type} (_ : Variable C) (_ : List C) :
    Except PyErr (Variable C) :=
  Except.error PyErr.notImplementedError

/-- The operations a client can apply to a Solution's constraint set through
its public interface: `constrain` (always raises, mutating nothing) and the
inherited `unconstrain`. -/
inductive SolOp (C : Type) where
  | constrain (cs : List C)
  | unconstrain (cs : List C)

/-- One step of the Solution interface: a raise leaves the object unchanged
(`Solution.constrain` raises first; `unconstrain` assigns only on success). -/
def applySolOp {C : Type} [DecidableEq C] (v : Variable C) : SolOp C → Variable C
  | SolOp.constrain _ => v
  | SolOp.unconstrain cs =>
    match v.unconstrain cs with
    | Except.ok v' => v'
    | Except.error _ => v

/-- An explicit heap of Python list objects, for modelling reference
aliasing and `copy.copy`. -/
structure Heap where
  cells : List (List Val)
deriving DecidableEq

/-- Contents of heap cell `n`. -/
def Heap.get (h : Heap) (n : Nat) : List Val :=
  h.cells.getD n []

/-- Number of allocated cells. -/
def Heap.size (h : Heap) : Nat :=
  h.cells.length

/-- Overwrite heap cell `n`. -/
def Heap.setCell (h : Heap) (n : Nat) (l : List Val) : Heap :=
  ⟨h.cells.set n l⟩

/-- `copy.copy` on a value: atoms are returned as-is; for a list reference a
fresh cell is allocated holding the same element list (a shallow copy: the
elements, including inner references, are shared). -/
def copyCopy (h : Heap) (v : Val) : Heap × Val :=
  match v with
  | Val.ref n => (⟨h.cells ++ [h.get n]⟩, Val.ref h.cells.length)
  | v => (h, v)

/-- `Binding.value` property (variables/__init__.py:177-186):
`return copy.copy(self._value)`. -/
def Binding.value {C : Type} (h : Heap) (b : Binding C) : Heap × Val :=
  copyCopy h b.val

/-- In-place mutation `lst[i] = x` of the list in heap cell `n`. -/
def storeAt (h : Heap) (n i : Nat) (x : Val) : Heap :=
  h.setCell n ((h.get n).set i x)

/-- Modelled from the spec: the repository defines only the abstract
`Constraint` base class; the spec's examples name concrete implementations
(`RangeConstraint(lo, hi)`, type/None checks).  `CC` instantiates the
abstract class for concrete counterexamples. -/
inductive CC where
  | range (lo hi : Int)
  | notNone
deriving DecidableEq, Repr

/-- Modelled from the spec: `evaluate` for the concrete constraints —
`range lo hi` accepts exactly the integers in `[lo, hi]`; `notNone` rejects
exactly the `None` value. -/
def evalCC : CC → Val → Bool
  | CC.range lo hi, Val.int z => decide (lo ≤ z) && decide (z ≤ hi)
  | CC.range _ _, _ => false
  | CC.notNone, Val.none => false
  | CC.notNone, _ => true

/-- `Problem` (problems/__init__.py:7-149): id, description and the ordered
variable list; `solve` and `randomize` are abstract. -/
structure Problem (V : Type) where
  id : Int
  description : String
  vars : List V

/-- `ProblemGenerator` (problems/__init__.py:152-279): a base problem and a
batch size. -/
structure ProblemGenerator (V : Type) where
  base : Problem V
  batch_size : Nat

/-- `ProblemGenerator.next` (problems/__init__.py:202-214):
`return self.base.randomize()`; `randomize` is abstract, passed here as a
function. -/
def ProblemGenerator.next {V : Type} (g : ProblemGenerator V)
    (randomize : Problem V → Problem V) : Problem V :=
  randomize g.base

/-- The loop body sequence of `ProblemGenerator.batch`
(problems/__init__.py:224-231), fuel-indexed: each iteration draws
`next()`, builds a row (`solve()` plus the row assembly, abstracted as
`mkRow`), appends it and increments `curr_batch_size`.  The source loop has
no break, no return inside the loop, and never compares `curr_batch_size`
with `batch_size`; the iterator never raises `StopIteration`.  `none` means
the loop has not returned within the given number of iterations. -/
def ProblemGenerator.batchLoop {V R : Type} (g : ProblemGenerator V)
    (randomize : Problem V → Problem V) (mkRow : Problem V → R) :
    Nat → Nat → List R → Option (List R)
  | 0, _, _ => Option.none
  | fuel + 1, curr_batch_size, batch =>
    let problem := g.next randomize
    let row := mkRow problem
    g.batchLoop randomize mkRow fuel (curr_batch_size + 1) (batch ++ [row])

/-- `ProblemGenerator.batch` (problems/__init__.py:216-233): runs the loop
from `curr_batch_size, batch = 0, []`. -/
def ProblemGenerator.batch {V R : Type} (g : ProblemGenerator V)
    (randomize : Problem V → Problem V) (mkRow : Problem V → R)
    (fuel : Nat) : Option (List R) :=
  g.batchLoop randomize mkRow fuel 0 []

/-- The bind loop raises no exception exactly when every constraint in the
list accepts the value. -/
theorem firstViolation_eq_none {C : Type} (eval : C → Val → Bool) (cs : List C) (x : Val) :
    firstViolation eval cs x = Option.none ↔ (cs.all fun c => eval c x) = true := by
  simp [firstViolation, List.find?_eq_none, List.all_eq_true]

/-- C2: `Binding.bind(x)` succeeds (raises nothing) iff `x` satisfies every
constraint currently attached to the binding's variable; on a violation the
binding state is left exactly as it was (atomic failure), and on success the
new value replaces the previous one. -/
theorem C2_theorem {C : Type} (eval : C → Val → Bool) (b : Binding C) (x : Val) :
    ((Binding.bind eval b x).2 = Option.none
        ↔ (b.var.constraints.all fun c => eval c x) = true)
    ∧ (Binding.bind eval b x).1
        = (if (b.var.constraints.all fun c => eval c x) = true then { b with val := x } else b) := by
  cases hfv : firstViolation eval b.var.constraints x with
  | none =>
    have hall := (firstViolation_eq_none eval b.var.constraints x).mp hfv
    simp [Binding.bind, hfv, hall]
  | some c =>
    have hnall : ¬ (b.var.constraints.all fun c => eval c x) = true := by
      intro hall
      have := (firstViolation_eq_none eval b.var.constraints x).mpr hall
      rw [hfv] at this
      exact Option.noConfusion this
    simp [Binding.bind, hfv, hnall]

/-- C10: `Binding.reassociate(v)` installs `v` as the associated variable
unconditionally (a later validation failure does not roll it back), keeps
the stored value unchanged in every case, and raises nothing iff the stored
value satisfies every constraint of `v`. -/
theorem C10_theorem {C : Type} (eval : C → Val → Bool) (b : Binding C) (w : Variable C) :
    (Binding.reassociate eval b w).1.var = w
    ∧ (Binding.reassociate eval b w).1.val = b.val
    ∧ ((Binding.reassociate eval b w).2 = Option.none
        ↔ (w.constraints.all fun c => eval c b.val) = true) := by
  have hkey : firstViolation eval ({ b with var := w } : Binding C).var.constraints b.val
      = firstViolation eval w.constraints b.val := rfl
  cases hfv : firstViolation eval w.constraints b.val with
  | none =>
    have hall := (firstViolation_eq_none eval w.constraints b.val).mp hfv
    simp [Binding.reassociate, Binding.bind, hkey, hfv, hall]
  | some c =>
    have hnall : ¬ (w.constraints.all fun c => eval c b.val) = true := by
      intro hall
      have := (firstViolation_eq_none eval w.constraints b.val).mpr hall
      rw [hfv] at this
      exact Option.noConfusion this
    simp [Binding.reassociate, Binding.bind, hkey, hfv, hnall]

/-- C7 counterexample: a variable whose single constraint rejects `None`.
`Binding(v, None)` (construction before a value is known) raises, and
`bind(None)` on an existing binding raises — the claim says binding the
unset sentinel skips validation and therefore cannot fail. -/
theorem C7_counterexample :
    Binding.init evalCC (Variable.init "x" "d" [CC.notNone]) Val.none
      = Except.error CC.notNone
    ∧ (Binding.bind evalCC ⟨Variable.init "x" "d" [CC.notNone], Val.int 1⟩ Val.none).2
      = some CC.notNone :=
  ⟨rfl, rfl⟩

/-- C7 amended: `bind(None)` validates `None` against every constraint like
any other value — there is no sentinel short-circuit.  It succeeds (storing
`None`) iff every constraint accepts `None`, and otherwise raises, leaving
the stored value unchanged. -/
theorem C7_theorem {C : Type} (eval : C → Val → Bool) (b : Binding C) :
    ((Binding.bind eval b Val.none).2 = Option.none
        ↔ (b.var.constraints.all fun c => eval c Val.none) = true)
    ∧ (Binding.bind eval b Val.none).1.val
        = (if (b.var.constraints.all fun c => eval c Val.none) = true then Val.none else b.val) := by
  cases hfv : firstViolation eval b.var.constraints Val.none with
  | none =>
    have hall := (firstViolation_eq_none eval b.var.constraints Val.none).mp hfv
    simp [Binding.bind, hfv, hall]
  | some c =>
    have hnall : ¬ (b.var.constraints.all fun c => eval c Val.none) = true := by
      intro hall
      have := (firstViolation_eq_none eval b.var.constraints Val.none).mpr hall
      rw [hfv] at this
      exact Option.noConfusion this
    simp [Binding.bind, hfv, hnall]

/-- C1 counterexample: a binding holding `5` whose variable then gets
`RangeConstraint(0, 4)` via `constrain`.  The call returns normally (the
claim says it must fail) and afterwards the binding's value violates a
constraint in the variable's set (the claim says that state must not
arise). -/
theorem C1_counterexample :
    Binding.constrainVar (⟨Variable.init "x" "digit" [], Val.int 5⟩ : Binding CC)
        [CC.range 0 4]
      = Except.ok ⟨⟨"x", "digit", ⟨Store.set [CC.range 0 4]⟩⟩, Val.int 5⟩
    ∧ firstViolation evalCC
        (⟨⟨"x", "digit", ⟨Store.set [CC.range 0 4]⟩⟩, Val.int 5⟩ : Binding CC).var.constraints
        (Val.int 5)
      = some (CC.range 0 4) :=
  ⟨rfl, rfl⟩

/-- C1 amended: `constrain` on the variable of a bound value normalizes the
argument, adds it to the constraint set and returns — it never re-validates
the current binding (the result does not depend on any `evaluate` and no
error can arise from a working set), so a binding that violates a newly
added constraint is silently retained. -/
theorem C1_theorem {C : Type} [DecidableEq C] (b : Binding C) (cs s : List C)
    (hs : b.var.constraint_set = ⟨Store.set s⟩) :
    Binding.constrainVar b cs
      = Except.ok ⟨⟨b.var.name, b.var.description, ⟨Store.set (pyUnion s (pySetOf cs))⟩⟩, b.val⟩ := by
  simp [Binding.constrainVar, Variable.constrain, ConstraintSet.add_constraints, hs, Except.map]

/-- C1 witness: the amended theorem applied to the concrete binding of `5`
with no prior constraints. -/
theorem C1_witness :
    (⟨Variable.init "x" "digit" [], Val.int 5⟩ : Binding CC).var.constraint_set
      = ⟨Store.set []⟩
    ∧ Binding.constrainVar (⟨Variable.init "x" "digit" [], Val.int 5⟩ : Binding CC)
        [CC.notNone]
      = Except.ok ⟨⟨"x", "digit", ⟨Store.set (pyUnion [] (pySetOf [CC.notNone]))⟩⟩, Val.int 5⟩ :=
  ⟨rfl, C1_theorem (⟨Variable.init "x" "digit" [], Val.int 5⟩ : Binding CC) [CC.notNone] [] rfl⟩

/-- One interface step on a variable whose constraint set is the empty
working set leaves the set empty. -/
theorem applySolOp_empty {C : Type} [DecidableEq C] (v : Variable C)
    (hv : v.constraint_set = ⟨Store.set []⟩) (op : SolOp C) :
    (applySolOp v op).constraint_set = ⟨Store.set []⟩ := by
  cases op with
  | constrain cs => exact hv
  | unconstrain cs =>
    simp [applySolOp, Variable.unconstrain, ConstraintSet.remove_constraints, hv, pyDiff,
      Except.map]

/-- Any sequence of interface steps keeps an empty working constraint set
empty. -/
theorem foldl_applySolOp_empty {C : Type} [DecidableEq C] :
    ∀ (ops : List (SolOp C)) (v : Variable C),
      v.constraint_set = ⟨Store.set []⟩ →
      (ops.foldl applySolOp v).constraint_set = ⟨Store.set []⟩ := by
  intro ops
  induction ops with
  | nil => intro v hv; exact hv
  | cons op rest ih =>
    intro v hv
    exact ih (applySolOp v op) (applySolOp_empty v hv op)

/-- C4: `Solution.constrain` raises `NotImplementedError` for every
argument; a Solution's name is the reserved identifier `"Solution"`; its
constraint set is empty at construction and stays empty under any sequence
of interface operations (`constrain` raises before mutating, `unconstrain`
removes from an empty set). -/
theorem C4_theorem {C : Type} [DecidableEq C] (d : String) (cs : List C)
    (ops : List (SolOp C)) :
    Solution.constrain (Solution.init (C := C) d) cs
      = Except.error PyErr.notImplementedError
    ∧ (Solution.init (C := C) d).name = "Solution"
    ∧ (Solution.init (C := C) d).constraints = []
    ∧ (ops.foldl applySolOp (Solution.init (C := C) d)).constraints = [] := by
  refine ⟨rfl, rfl, rfl, ?_⟩
  have h := foldl_applySolOp_empty ops (Solution.init (C := C) d) rfl
  simp [Variable.constraints, ConstraintSet.constraints, h]

/-- The `batch()` loop body never returns: each iteration draws the next
instance and appends a row, and no exit condition exists. -/
theorem batchLoop_eq_none {V R : Type} (g : ProblemGenerator V)
    (randomize : Problem V → Problem V) (mkRow : Problem V → R) :
    ∀ (fuel curr : Nat) (acc : List R),
      g.batchLoop randomize mkRow fuel curr acc = Option.none := by
  intro fuel
  induction fuel with
  | zero => intro curr acc; rfl
  | succ n ih =>
    intro curr acc
    exact ih (curr + 1) (acc ++ [mkRow (g.next randomize)])

/-- C3: `ProblemGenerator.batch()` never produces a result — the loop
increments `curr_batch_size` but never compares it to `batch_size`, and the
underlying iterator never terminates, so within any finite number of
iterations no tabular batch is returned (the claim says it returns exactly
`batch_size` rows). -/
theorem C3_eval {V R : Type} (g : ProblemGenerator V)
    (randomize : Problem V → Problem V) (mkRow : Problem V → R) (fuel : Nat) :
    g.batch randomize mkRow fuel = Option.none :=
  batchLoop_eq_none g randomize mkRow fuel 0 []

/-- C5: evaluating the code at the failing input — after `clear()` the
store is an empty dict, so `remove_constraint` of an (absent) constraint
raises `TypeError` instead of being a no-op. -/
theorem C5_eval :
    ((ConstraintSet.init ([] : List CC)).clear).constraints = []
    ∧ ConstraintSet.remove_constraint ((ConstraintSet.init ([] : List CC)).clear)
        (CC.range 0 4)
      = Except.error PyErr.typeError :=
  ⟨rfl, rfl⟩

/-- C6: evaluating the code at the failing input — after `clear()` the
`constraints` accessor does report an empty list, but a subsequent
`add_constraint` raises `AttributeError` (`dict` has no `union`) instead of
yielding a set containing exactly the added constraint. -/
theorem C6_eval :
    ((ConstraintSet.init [CC.range 0 4]).clear).constraints = []
    ∧ ConstraintSet.add_constraint ((ConstraintSet.init [CC.range 0 4]).clear) CC.notNone
      = Except.error PyErr.attributeError :=
  ⟨rfl, rfl⟩

/-- C8: evaluating the code — `Solution.__init__` takes only a description;
the constructed object is fully determined by it (fixed name, empty
constraint set) and holds no bound value anywhere. -/
theorem C8_eval :
    Solution.init (C := CC) "the answer"
      = ⟨"Solution", "the answer", ⟨Store.set []⟩⟩ :=
  rfl

/-- C9 counterexample: the stored value is a list (`cell 0`) whose element
is an inner list (`cell 1`).  Reading the `value` property returns a fresh
top-level cell (`cell 2`) that still contains the *same* inner reference,
so mutating the inner list through the returned copy changes the contents
reachable from the internally stored value — the claim says mutation
through the returned object can never do that, for every value shape
including nested mutable values. -/
theorem C9_counterexample :
    Binding.value ⟨[[Val.ref 1], [Val.int 1]]⟩
        (⟨Variable.init "x" "d" [], Val.ref 0⟩ : Binding CC)
      = (⟨[[Val.ref 1], [Val.int 1], [Val.ref 1]]⟩, Val.ref 2)
    ∧ Heap.get ⟨[[Val.ref 1], [Val.int 1], [Val.ref 1]]⟩ 2 = [Val.ref 1]
    ∧ Heap.get (storeAt ⟨[[Val.ref 1], [Val.int 1], [Val.ref 1]]⟩ 1 0 (Val.int 99)) 1
      = [Val.int 99]
    ∧ ¬ Heap.get (storeAt ⟨[[Val.ref 1], [Val.int 1], [Val.ref 1]]⟩ 1 0 (Val.int 99)) 1
      = Heap.get ⟨[[Val.ref 1], [Val.int 1]]⟩ 1 :=
  ⟨rfl, rfl, rfl, by decide⟩

/-- C9 amended: the `value` property returns `copy.copy`, a *shallow* copy.
For a stored list reference the returned reference is a fresh cell distinct
from the stored one, whose contents equal the stored cell's element list
(so inner references are shared), and mutating the returned top-level
object leaves the stored cell unchanged. -/
theorem C9_theorem {C : Type} (h : Heap) (b : Binding C) (n : Nat)
    (hv : b.val = Val.ref n) (hn : n < h.size) :
    (Binding.value h b).2 = Val.ref h.size
    ∧ (Binding.value h b).2 ≠ b.val
    ∧ Heap.get (Binding.value h b).1 h.size = Heap.get h n
    ∧ ∀ (i : Nat) (x : Val),
        Heap.get (storeAt (Binding.value h b).1 h.size i x) n = Heap.get h n := by
  have hsz : h.size = h.cells.length := rfl
  have hn' : n < h.cells.length := by rw [← hsz]; exact hn
  have hval : Binding.value h b = (⟨h.cells ++ [h.get n]⟩, Val.ref h.cells.length) := by
    simp [Binding.value, copyCopy, hv]
  refine ⟨?_, ?_, ?_, ?_⟩
  · rw [hval]
    rfl
  · rw [hval, hv]
    intro heq
    have : h.cells.length = n := Val.ref.inj heq
    omega
  · rw [hval]
    simp [Heap.get, Heap.size, List.getD_eq_getElem?_getD, List.getElem?_concat_length]
  · intro i x
    rw [hval]
    simp only [storeAt, Heap.setCell, Heap.get, Heap.size,
      List.getD_eq_getElem?_getD]
    rw [List.getElem?_set_ne (by omega : h.cells.length ≠ n),
      List.getElem?_append_left hn']

/-- C9 witness: the amended theorem applied to a one-cell heap holding the
stored list `[1]`. -/
theorem C9_witness :
    (⟨Variable.init "x" "d" [], Val.ref 0⟩ : Binding CC).val = Val.ref 0
    ∧ 0 < Heap.size ⟨[[Val.int 1]]⟩
    ∧ Heap.get
        (storeAt
          (Binding.value ⟨[[Val.int 1]]⟩
            (⟨Variable.init "x" "d" [], Val.ref 0⟩ : Binding CC)).1
          (Heap.size ⟨[[Val.int 1]]⟩) 0 (Val.int 7)) 0
      = Heap.get ⟨[[Val.int 1]]⟩ 0 :=
  ⟨rfl, by decide,
    (C9_theorem ⟨[[Val.int 1]]⟩ (⟨Variable.init "x" "d" [], Val.ref 0⟩ : Binding CC) 0
      rfl (by decide)).2.2.2 0 (Val.int 7)⟩
